import Mathlib

/-!
Shallow embedding of `src/models/r_net.py` (an R-NET style reading-comprehension
network) and verification of the specification claims about it.

Tensors are embedded as explicit-shape structures whose entries are total
functions on `Nat` indices; a tensor is determined by its shape together with
its entries at in-range indices (`T2.eqv`, `T3.eqv`).  Entry values are
rationals (standing in for floats; no claim depends on rounding).

Components of this repository that the claims depend on but whose source files
are not present (`utils/dataset.py`, `modules/attention.py`,
`modules/recurrent.py`) are modelled from the spec; each such definition is
marked `Modelled from the spec:` in its doc comment.  Collaborators external to
the repository (torch packing, `nn.Embedding`, `nn.Conv1d`, `nn.Linear`) are
embedded according to their documented interface contracts.
-/

namespace RNetEmbed

/-- Rank-2 tensor: two dimensions and an entry function. -/
structure T2 (α : Type) where
  d0 : Nat
  d1 : Nat
  val : Nat → Nat → α

/-- Rank-3 tensor: three dimensions and an entry function. -/
structure T3 (α : Type) where
  d0 : Nat
  d1 : Nat
  d2 : Nat
  val : Nat → Nat → Nat → α

/-- Extensional equality of rank-2 tensors: equal shapes and equal entries at
every in-range index pair. -/
def T2.eqv (a b : T2 α) : Prop :=
  a.d0 = b.d0 ∧ a.d1 = b.d1 ∧ ∀ i < a.d0, ∀ j < a.d1, a.val i j = b.val i j

/-- Extensional equality of rank-3 tensors. -/
def T3.eqv (a b : T3 α) : Prop :=
  a.d0 = b.d0 ∧ a.d1 = b.d1 ∧ a.d2 = b.d2 ∧
    ∀ i < a.d0, ∀ j < a.d1, ∀ k < a.d2, a.val i j k = b.val i j k

instance {α : Type} [DecidableEq α] (a b : T2 α) : Decidable (a.eqv b) := by
  unfold T2.eqv; infer_instance

instance {α : Type} [DecidableEq α] (a b : T3 α) : Decidable (a.eqv b) := by
  unfold T3.eqv; infer_instance

/-- `Tensor.transpose(0, 1)` on a rank-2 tensor. -/
def T2.transpose (a : T2 α) : T2 α := ⟨a.d1, a.d0, fun i j => a.val j i⟩

/-- `Tensor.transpose(0, 1)` on a rank-3 tensor (swap the first two axes). -/
def T3.transpose01 (a : T3 α) : T3 α := ⟨a.d1, a.d0, a.d2, fun i j k => a.val j i k⟩

/-- `Tensor.transpose(1, 2)` on a rank-3 tensor (swap the last two axes). -/
def T3.transpose12 (a : T3 α) : T3 α := ⟨a.d0, a.d2, a.d1, fun i j k => a.val i k j⟩

/-- Elementwise sum of two rank-3 tensors of equal shape (torch `x + y`; the
shape is taken from the first operand, as the callers only add
equally-shaped tensors). -/
def T3.add (a b : T3 ℚ) : T3 ℚ := ⟨a.d0, a.d1, a.d2, fun i j k => a.val i j k + b.val i j k⟩

/-- Elementwise map on a rank-3 tensor (used for activation functions). -/
def T3.map (f : ℚ → ℚ) (a : T3 ℚ) : T3 ℚ := ⟨a.d0, a.d1, a.d2, fun i j k => f (a.val i j k)⟩

/-- `x.unsqueeze(0)`: add a leading axis of size 1. -/
def T2.unsqueeze0 (a : T2 α) : T3 α := ⟨1, a.d0, a.d1, fun _ j k => a.val j k⟩

/-- `x.squeeze(0)`: drop a leading axis of size 1. -/
def T3.squeeze0 (a : T3 α) : T2 α := ⟨a.d1, a.d2, fun j k => a.val 0 j k⟩

/-- `x.expand([n, x.size(1), x.size(2)])` on a tensor whose leading axis has
size 1 (used for the pointer network's initial stacked hidden state). -/
def T3.expand0 (n : Nat) (a : T3 α) : T3 α := ⟨n, a.d1, a.d2, fun _ j k => a.val 0 j k⟩

/-- Position of the first occurrence of `a` in `l` (the inverse permutation
lookup used to restore original batch order, as in the usual
`sorted_idx.sort()` PyTorch idiom). -/
def invApply (l : List Nat) (a : Nat) : Nat :=
  match l with
  | [] => 0
  | b :: t => if b = a then 0 else invApply t a + 1

/-- Modelled from the spec: `utils/dataset.py` (class `Documents`) is not under
`src/`.  Per the spec's data model, a `Documents` batch carries a token-index
tensor, per-sequence lengths (in length-sorted order, as required for packing),
a validity mask in the original batch order (`mask_original`), and a stored
permutation between original and length-sorted batch order: `sorted_idx j` is
the original index of the example placed at sorted position `j`. -/
structure Documents where
  tensor : T2 Nat
  lengths : List Nat
  mask_original : T2 ℚ
  sorted_idx : List Nat

/-- Batch size of a `Documents` batch. -/
def Documents.batchSize (d : Documents) : Nat := d.sorted_idx.length

/-- Modelled from the spec: the `Documents` invariant — the stored indices are
a permutation of the batch positions, lengths are aligned to the sorted batch
and sorted descending. -/
def Documents.wf (d : Documents) : Prop :=
  d.sorted_idx.Perm (List.range d.batchSize) ∧
    d.lengths.length = d.batchSize ∧ List.Sorted (· ≥ ·) d.lengths

instance (d : Documents) : Decidable d.wf := by
  unfold Documents.wf; infer_instance

/-- Modelled from the spec: `Documents.to_sorted_order(x, batch_dim=0)` —
gather along the batch axis (axis 0 of a rank-2 tensor) at the sorted
permutation indices. -/
def Documents.to_sorted_order0 (d : Documents) (X : T2 α) [Inhabited α] : T2 α :=
  ⟨d.batchSize, X.d1, fun i j => X.val (d.sorted_idx.getD i 0) j⟩

/-- Modelled from the spec: `Documents.restore_original_order(x, batch_dim=0)`
— gather along axis 0 at the inverse permutation indices. -/
def Documents.restore_original_order0 (d : Documents) (X : T2 α) [Inhabited α] : T2 α :=
  ⟨d.batchSize, X.d1, fun i j => X.val (invApply d.sorted_idx i) j⟩

/-- Modelled from the spec: `Documents.to_sorted_order(x, batch_dim=1)` on a
seq-major rank-3 tensor (seq, batch, feature). -/
def Documents.to_sorted_order1 (d : Documents) (X : T3 α) : T3 α :=
  ⟨X.d0, d.batchSize, X.d2, fun s i f => X.val s (d.sorted_idx.getD i 0) f⟩

/-- Modelled from the spec: `Documents.restore_original_order(x, batch_dim=1)`
on a seq-major rank-3 tensor. -/
def Documents.restore_original_order1 (d : Documents) (X : T3 α) : T3 α :=
  ⟨X.d0, d.batchSize, X.d2, fun s i f => X.val s (invApply d.sorted_idx i) f⟩

/-- A packed sequence: the padded seq-major data tensor (seq, batch, feature)
together with the per-example lengths, as recoverable by
`torch.nn.utils.rnn.pad_packed_sequence` (collaborator contract: unpacking
recovers original per-example lengths exactly). -/
structure PackedSeq where
  data : T3 ℚ
  lengths : List Nat

/-- `pad_packed_sequence(pack)` (default `batch_first=False`): the padded
seq-major tensor and the lengths. -/
def pad_packed_sequence (p : PackedSeq) : T3 ℚ × List Nat := (p.data, p.lengths)

/-- `pack_padded_sequence(tensor, lengths)` (default `batch_first=False`):
pack a seq-major padded tensor. -/
def pack_padded_sequence (t : T3 ℚ) (lengths : List Nat) : PackedSeq := ⟨t, lengths⟩

/-- `pack_padded_sequence(tensor, lengths, batch_first=True)`: pack a
batch-major padded tensor (internally seq-major). -/
def pack_padded_sequence_bf (t : T3 ℚ) (lengths : List Nat) : PackedSeq :=
  ⟨t.transpose01, lengths⟩

/-- `pack_residual` (src/models/r_net.py lines 10-17): unpad both operands,
raise on differing per-example lengths, otherwise repack the elementwise sum
of the padded tensors. -/
def pack_residual (x_pack y_pack : PackedSeq) : Except String PackedSeq :=
  let xp := pad_packed_sequence x_pack
  let yp := pad_packed_sequence y_pack
  if xp.2 ≠ yp.2 then Except.error ("different lengths")
  else Except.ok (pack_padded_sequence (T3.add xp.1 yp.1) xp.2)

/-- `nn.Embedding` lookup on a rank-2 index tensor: result entry `(i, j, k)`
is column `k` of the weight row selected by index `(i, j)`. -/
def embedLookup (w : T2 ℚ) (idx : T2 Nat) : T3 ℚ :=
  ⟨idx.d0, idx.d1, w.d1, fun i j k => w.val (idx.val i j) k⟩

/-- `tensor.view(-1, char_num)`: flatten the first two axes of a rank-3
index tensor. -/
def view2 (t : T3 Nat) : T2 Nat :=
  ⟨t.d0 * t.d1, t.d2, fun i j => t.val (i / t.d1) (i % t.d1) j⟩

/-- `output.view(batch_num, word_num, -1)`: unflatten the first axis of a
rank-2 tensor into `(b, w)`, inferring the final dimension from the element
count as torch does. -/
def view3 (t : T2 ℚ) (b w : Nat) : T3 ℚ :=
  ⟨b, w, t.d0 * t.d1 / (b * w), fun i j k => t.val (i * w + j) k⟩

/-- `nn.Conv1d(in_channels, out_channels, kernel_size)` (stride 1, no
padding), embedded from its documented interface: on input `(N, C, L)` it
yields `(N, out_channels, L - k + 1)`, failing when the input length is
shorter than the kernel or the channel count mismatches. -/
structure Conv1dM where
  in_channels : Nat
  out_channels : Nat
  kernel_size : Nat
  weight : Nat → Nat → Nat → ℚ
  bias : Nat → ℚ

/-- Forward pass of the embedded `nn.Conv1d`. -/
def Conv1dM.forward (c : Conv1dM) (x : T3 ℚ) : Except String (T3 ℚ) :=
  if x.d1 ≠ c.in_channels then Except.error ("channel mismatch")
  else if x.d2 < c.kernel_size then
    Except.error ("kernel size greater than input size")
  else Except.ok ⟨x.d0, c.out_channels, x.d2 - c.kernel_size + 1,
    fun n o i => c.bias o +
      ((List.range c.in_channels).map (fun ch =>
        ((List.range c.kernel_size).map (fun t => c.weight o ch t * x.val n ch (i + t))).sum)).sum⟩

/-- `nn.Linear(in_features, out_features)`, embedded from its documented
interface. -/
structure LinearM where
  in_features : Nat
  out_features : Nat
  weight : Nat → Nat → ℚ
  bias : Nat → ℚ

/-- Forward pass of the embedded `nn.Linear` on a rank-2 input. -/
def LinearM.forward (l : LinearM) (x : T2 ℚ) : T2 ℚ :=
  ⟨x.d0, l.out_features, fun i o =>
    l.bias o + ((List.range l.in_features).map (fun j => l.weight o j * x.val i j)).sum⟩

/-- Maximum of a list of rationals (the head seeds the fold). -/
def listMax : List ℚ → ℚ
  | [] => 0
  | h :: t => t.foldl max h

/-- The `Max(2)` module (src/models/r_net.py lines 85-92): maximum over the
last axis of a rank-3 tensor. -/
def maxDim2 (t : T3 ℚ) : T2 ℚ :=
  ⟨t.d0, t.d1, fun i j => listMax ((List.range t.d2).map (t.val i j))⟩

/-- Entry lookup for `torch.cat(ts, dim=1)`: walk the pieces subtracting
column offsets. -/
def catLookup : List (T2 ℚ) → Nat → Nat → ℚ
  | [], _, _ => 0
  | t :: ts, i, j => if j < t.d1 then t.val i j else catLookup ts i (j - t.d1)

/-- `torch.cat(ts, dim=1)` for rank-2 tensors that agree on the first
dimension (taken from the head, as at the use site all pieces share it). -/
def catDim1 (ts : List (T2 ℚ)) : T2 ℚ :=
  ⟨(ts.headD ⟨0, 0, fun _ _ => 0⟩).d0, (ts.map T2.d1).sum, catLookup ts⟩

/-- `tensor * mask.float()` on an integer index tensor with a boolean mask:
positions where the mask is false are zeroed; an absent mask leaves the
indices unchanged (src/models/r_net.py lines 147-148). -/
def applyMask (t : T3 Nat) (mask : Option (T3 Bool)) : T3 Nat :=
  match mask with
  | none => t
  | some m => ⟨t.d0, t.d1, t.d2, fun i j k => if m.val i j k then t.val i j k else 0⟩

/-- State of a constructed `CharLevelWordEmbeddingCnn`
(src/models/r_net.py lines 100-139). -/
structure CharCnn where
  embed_weight : T2 ℚ
  embed_requires_grad : Bool
  padding_idx : Nat
  embedding_size : Nat
  cnn_layers : List (Conv1dM × (ℚ → ℚ))
  output_layer : Option LinearM
  output_dim : Nat

/-- Parameters standing for the random initialisation of the torch modules
(embedding table rows, convolution kernels, projection weights); the
constructor is deterministic given these. -/
structure InitParams where
  embed_init : Nat → Nat → ℚ
  conv_weight : Nat → Nat → Nat → Nat → ℚ
  conv_bias : Nat → Nat → ℚ
  lin_weight : Nat → Nat → ℚ
  lin_bias : Nat → ℚ

/-- Python truthiness of the `output_dim` constructor argument
(`output_dim if output_dim else conv_out_size`). -/
def truthy : Option Nat → Bool
  | none => false
  | some d => d ≠ 0

/-- `CharLevelWordEmbeddingCnn.__init__` (src/models/r_net.py lines 101-139):
when `embedding_weights` is supplied, `char_num` and `char_embedding_size`
are overwritten by its dimensions, the table is set to those weights with
trainability `requires_grad`; otherwise a freshly initialised table (with the
padding row zeroed, per the `nn.Embedding` contract) is used and stays
trainable.  One convolution per configured filter width; the projection layer
exists only when `output_dim` is truthy. -/
def charLevelWordEmbeddingCnnInit (p : InitParams)
    (char_embedding_size char_num num_filters : Nat)
    (ngram_filter_sizes : List Nat) (output_dim : Option Nat)
    (activation : ℚ → ℚ) (embedding_weights : Option (T2 ℚ))
    (padding_idx : Nat) (requires_grad : Bool) : CharCnn :=
  let dims : Nat × Nat :=
    match embedding_weights with
    | some w => (w.d0, w.d1)
    | none => (char_num, char_embedding_size)
  let embed_weight : T2 ℚ :=
    match embedding_weights with
    | some w => w
    | none => ⟨dims.1, dims.2, fun i j => if i = padding_idx then 0 else p.embed_init i j⟩
  let embed_requires_grad : Bool :=
    match embedding_weights with
    | some _ => requires_grad
    | none => true
  let conv_out_size := ngram_filter_sizes.length * num_filters
  { embed_weight := embed_weight
    embed_requires_grad := embed_requires_grad
    padding_idx := padding_idx
    embedding_size := dims.2
    cnn_layers := (List.range ngram_filter_sizes.length).map (fun i =>
      (⟨dims.2, num_filters, ngram_filter_sizes.getD i 0,
        p.conv_weight i, p.conv_bias i⟩, activation))
    output_layer :=
      if truthy output_dim then
        some ⟨conv_out_size, output_dim.getD 0, p.lin_weight, p.lin_bias⟩
      else none
    output_dim := if truthy output_dim then output_dim.getD 0 else conv_out_size }

/-- The convolution input built inside `CharLevelWordEmbeddingCnn.forward`
(src/models/r_net.py lines 147-151): optionally mask the index tensor, embed
the flattened characters, transpose to `(batch*word, embed, char)`. -/
def CharCnn.convInput (c : CharCnn) (tensor : T3 Nat) (mask : Option (T3 Bool)) : T3 ℚ :=
  (embedLookup c.embed_weight (view2 (applyMask tensor mask))).transpose12

/-- One `layer(tensor)` of the list comprehension at src/models/r_net.py line
153: convolution, activation, max over remaining character positions. -/
def convPooled (layer : Conv1dM × (ℚ → ℚ)) (x : T3 ℚ) : Except String (T2 ℚ) := do
  let y ← layer.1.forward x
  pure (maxDim2 (T3.map layer.2 y))

/-- The optional projection (src/models/r_net.py lines 156-157). -/
def CharCnn.applyOutputLayer (c : CharCnn) (o : T2 ℚ) : T2 ℚ :=
  match c.output_layer with
  | some lin => lin.forward o
  | none => o

/-- `CharLevelWordEmbeddingCnn.forward` (src/models/r_net.py lines 141-159). -/
def CharCnn.forward (c : CharCnn) (tensor : T3 Nat) (mask : Option (T3 Bool)) :
    Except String (T3 ℚ) := do
  let masked := applyMask tensor mask
  let conv_in := c.convInput tensor mask
  let conv_out ← c.cnn_layers.mapM (fun layer => convPooled layer conv_in)
  let output ←
    if conv_out.length > 1 then pure (catDim1 conv_out)
    else
      match conv_out with
      | c0 :: _ => pure c0
      | [] => Except.error ("index out of range")
  pure (view3 (c.applyOutputLayer output) masked.d0 masked.d1)

/-- State of a constructed `WordEmbedding` (src/models/r_net.py lines
162-189): the lookup table is the supplied pretrained matrix, with the given
padding index and trainability flag. -/
structure WordEmbeddingM where
  weight : T2 ℚ
  padding_idx : Nat
  requires_grad : Bool

/-- `WordEmbedding.__init__` (src/models/r_net.py lines 167-176). -/
def wordEmbeddingInit (word_embedding : T2 ℚ) (padding_idx : Nat)
    (requires_grad : Bool) : WordEmbeddingM :=
  ⟨word_embedding, padding_idx, requires_grad⟩

/-- `WordEmbedding.forward(*tensors)` (src/models/r_net.py lines 178-189):
one lookup through the shared table per input tensor. -/
def WordEmbeddingM.forward (m : WordEmbeddingM) (tensors : List (T2 Nat)) : List (T3 ℚ) :=
  tensors.map (fun t => embedLookup m.weight t)

/-- One optimizer step on the embedding table, embedded from the documented
collaborator contract of `nn.Embedding`/autograd: a parameter with
`requires_grad=False` receives no update, and the gradient row at
`padding_idx` is always zero, so that row never changes. -/
def WordEmbeddingM.applyGrad (m : WordEmbeddingM) (g : Nat → Nat → ℚ) : WordEmbeddingM :=
  if m.requires_grad then
    { m with weight := ⟨m.weight.d0, m.weight.d1, fun i j =>
        if i = m.padding_idx then m.weight.val i j else m.weight.val i j - g i j⟩ }
  else m

/-- Modelled from the spec: `modules/attention.py` (class `AttentionPooling`)
is not under `src/`.  Per the spec, it pools the seq-major key sequence
`(key_len, batch, key_size)` into a summary conditioned on a query,
restricted by a validity mask over key positions, and can also report the
unnormalized per-key-position attention scores (`return_key_scores=True`).
`run key query key_mask` yields `(pooled summary, key scores)`.  The modules
in `src/` construct it with `batch_first=False`, and `RNet.forward` hands it
seq-major keys and masks and transposes the score tensors afterwards
(src/models/r_net.py lines 386-405), so the scores are seq-major:
one row per key position, one column per batch element. -/
structure AttentionPoolingM where
  run : T3 ℚ → T3 ℚ → T2 ℚ → T3 ℚ × T2 ℚ

/-- The seq-major score-shape contract of the modelled `AttentionPooling`:
scores carry one entry per key position and batch element. -/
def AttentionPoolingM.wf (m : AttentionPoolingM) : Prop :=
  ∀ key query mask, (m.run key query mask).2.d0 = key.d0 ∧
    (m.run key query mask).2.d1 = key.d1

/-- Modelled from the spec: `modules/recurrent.py` (class `StackedCell`) is
not under `src/`.  A stacked recurrent cell: input `(batch, in_size)` and
stacked hidden `(layers, batch, n)` yield a top-layer output `(batch, n)` and
an updated stacked hidden state. -/
structure StackedCellM where
  run : T2 ℚ → T3 ℚ → T2 ℚ × T3 ℚ

/-- State of a constructed `PointerNetwork` (src/models/r_net.py lines
214-231): two attention-pooling modules, the learned query parameter `V_q`
of shape `(1, 1, v_q_size)`, and the stacked recurrent cell. -/
structure PointerNetworkM where
  num_layers : Nat
  question_pooling : AttentionPoolingM
  passage_pooling : AttentionPoolingM
  V_q : T3 ℚ
  cell : StackedCellM

/-- `PointerNetwork.forward` (src/models/r_net.py lines 233-246): pool the
masked question with the learned query into an initial hidden state; pool the
masked passage conditioned on it, keeping the unnormalized scores as the
begin logits; feed the pooled vector through the stacked cell; re-pool the
masked passage conditioned on the cell output, keeping those scores as the
end logits. -/
def PointerNetworkM.forward (pn : PointerNetworkM) (question_pad : T3 ℚ)
    (question_mask : T2 ℚ) (passage_pad : T3 ℚ) (passage_mask : T2 ℚ) :
    T2 ℚ × T2 ℚ :=
  let hidden := (pn.question_pooling.run question_pad pn.V_q question_mask).1
  let pooled := pn.passage_pooling.run passage_pad hidden passage_mask
  let ans_begin := pooled.2
  let hidden2 := T3.expand0 pn.num_layers hidden
  let step := pn.cell.run pooled.1.squeeze0 hidden2
  let ans_end := (pn.passage_pooling.run passage_pad step.1.unsqueeze0 passage_mask).2
  (ans_begin, ans_end)

/-- State of a constructed `RNet` (src/models/r_net.py lines 321-369).  The
recurrent encoder stacks (`SentenceEncoding`'s two `RNN`s, `PairEncoder`,
`SelfMatchingEncoder`) live in `modules/recurrent.py`, which is not under
`src/`; they are modelled from the spec as sequence-to-sequence functions
(packed in, packed out for the `RNN`s; padded states + mask + packed passage
in, packed out for the attention encoders) and quantified over in the
theorems under the spec's interface contracts.  The pointer network is kept
abstract the same way (`PointerNetworkM.forward` instantiates it). -/
structure RNetM where
  question_encoder : PackedSeq → PackedSeq
  passage_encoder : PackedSeq → PackedSeq
  pair_encoder : T3 ℚ → T2 ℚ → PackedSeq → PackedSeq
  self_matching_encoder : T3 ℚ → T2 ℚ → PackedSeq → PackedSeq
  pointer_output : T3 ℚ → T2 ℚ → T3 ℚ → T2 ℚ → T2 ℚ × T2 ℚ
  residual : Bool

/-- `RNet._sentence_encoding`, question half (src/models/r_net.py lines
408-416): pack the batch-major embedded question by the question lengths and
encode it. -/
def RNetM.questionEncodedPack (m : RNetM) (question : Documents)
    (embedded_question : T3 ℚ) : PackedSeq :=
  m.question_encoder (pack_padded_sequence_bf embedded_question question.lengths)

/-- `RNet._sentence_encoding`, passage half (src/models/r_net.py lines
408-416). -/
def RNetM.passageEncodedPack (m : RNetM) (passage : Documents)
    (embedded_passage : T3 ℚ) : PackedSeq :=
  m.passage_encoder (pack_padded_sequence_bf embedded_passage passage.lengths)

/-- The local `question_pad_in_passage_sorted_order` of `RNet.forward`
(src/models/r_net.py lines 380-385): unpack the encoded question (sorted by
question length), restore the question's original batch order, then re-sort
by the passage's permutation. -/
def RNetM.questionPadInPassageSortedOrder (m : RNetM) (question passage : Documents)
    (embedded_question : T3 ℚ) : T3 ℚ :=
  passage.to_sorted_order1
    (question.restore_original_order1
      (pad_packed_sequence (m.questionEncodedPack question embedded_question)).1)

/-- The local `question_mask_in_passage_sorted_order` of `RNet.forward`
(src/models/r_net.py lines 386-387): the question's original-order mask
re-sorted by the passage's permutation, transposed to seq-major. -/
def questionMaskInPassageSortedOrder (question passage : Documents) : T2 ℚ :=
  (passage.to_sorted_order0 question.mask_original).transpose

/-- The seq-major passage mask in passage-sorted order, as built at
src/models/r_net.py lines 403 and 421. -/
def passageMaskSortedOrder (passage : Documents) : T2 ℚ :=
  (passage.to_sorted_order0 passage.mask_original).transpose

/-- `RNet._self_match_encode` (src/models/r_net.py lines 418-424). -/
def RNetM.self_match_encode (m : RNetM) (paired_passage_pack : PackedSeq)
    (passage : Documents) : PackedSeq :=
  m.self_matching_encoder (pad_packed_sequence paired_passage_pack).1
    (passageMaskSortedOrder passage) paired_passage_pack

/-- The pair-encoded passage pack after the optional residual connection
(src/models/r_net.py lines 389-393): the pair encoder consumes the
passage-sorted question states and mask together with the sentence-encoded
passage pack; with the residual toggle on, that same sentence-encoded
passage pack (the pair encoder's pre-encoding input) is added back. -/
def RNetM.pairedPack (m : RNetM) (question passage : Documents)
    (embedded_question embedded_passage : T3 ℚ) : Except String PackedSeq :=
  let passage_pack := m.passageEncodedPack passage embedded_passage
  let paired0 := m.pair_encoder
    (m.questionPadInPassageSortedOrder question passage embedded_question)
    (questionMaskInPassageSortedOrder question passage)
    passage_pack
  if m.residual then pack_residual paired0 passage_pack else pure paired0

/-- The self-matched passage pack after the optional residual connection
(src/models/r_net.py lines 395-398): with the residual toggle on, the first
`pack_residual` operand is `paired_passage_pack` — the same value fed to the
self-matching encoder. -/
def RNetM.selfMatchedPack (m : RNetM) (question passage : Documents)
    (embedded_question embedded_passage : T3 ℚ) : Except String PackedSeq := do
  let paired ← m.pairedPack question passage embedded_question embedded_passage
  let self_matched0 := m.self_match_encode paired passage
  if m.residual then pack_residual paired self_matched0 else pure self_matched0

/-- `RNet.forward` (src/models/r_net.py lines 371-406): run the pipeline,
hand the passage-sorted question states/mask and the unpacked self-matched
passage (with the passage-sorted mask) to the pointer network, then restore
the passage's original batch order on the transposed begin/end logits. -/
def RNetM.forward (m : RNetM) (question passage : Documents)
    (embedded_question embedded_passage : T3 ℚ) :
    Except String (T2 ℚ × T2 ℚ) := do
  let self_matched ← m.selfMatchedPack question passage embedded_question embedded_passage
  let be := m.pointer_output
    (m.questionPadInPassageSortedOrder question passage embedded_question)
    (questionMaskInPassageSortedOrder question passage)
    (pad_packed_sequence self_matched).1
    (passageMaskSortedOrder passage)
  pure (passage.restore_original_order0 be.1.transpose,
        passage.restore_original_order0 be.2.transpose)

/-! ### Concrete instances used by witnesses and counterexamples -/

/-- A concrete three-example batch: original lengths `[4, 2, 5]`, so sorted
order is `[2, 0, 1]` and sorted lengths `[5, 4, 2]`. -/
def docEx : Documents :=
  ⟨⟨3, 5, fun i j => i + j⟩, [5, 4, 2],
   ⟨3, 5, fun i j => if j < 4 - i then 1 else 0⟩, [2, 0, 1]⟩

/-- A concrete batch-aligned rank-2 tensor with three rows. -/
def xEx : T2 ℚ := ⟨3, 2, fun i j => ((10 * i + j : Nat) : ℚ)⟩

/-- A concrete seq-major rank-3 tensor with batch dimension three. -/
def yEx : T3 ℚ := ⟨2, 3, 2, fun s i f => ((100 * s + 10 * i + f : Nat) : ℚ)⟩

/-- Packed sequence with lengths `[3, 2]` and deterministic content. -/
def packA : PackedSeq := ⟨⟨3, 2, 1, fun s b _ => ((s + b : Nat) : ℚ)⟩, [3, 2]⟩

/-- Second packed sequence with lengths `[3, 2]`. -/
def packB : PackedSeq := ⟨⟨3, 2, 1, fun s b _ => ((2 * s + 3 * b : Nat) : ℚ)⟩, [3, 2]⟩

/-- Packed sequence with mismatched lengths `[3, 1]`. -/
def packC : PackedSeq := ⟨⟨3, 2, 1, fun _ _ _ => 0⟩, [3, 1]⟩

/-- Fixed initialisation parameters for concrete character-CNN instances. -/
def paramsEx : InitParams :=
  ⟨fun _ _ => 1, fun _ _ _ _ => 1, fun _ _ => 0, fun _ _ => 1, fun _ => 0⟩

/-- A concrete character-embedding table whose row 0 is nonzero and whose
padding row (index 1) is zero. -/
def wcharEx : T2 ℚ := ⟨2, 1, fun i _ => if i = 0 then 5 else 0⟩

/-- Character CNN built from `wcharEx` with a single width-1 filter. -/
def charCnnEx : CharCnn :=
  charLevelWordEmbeddingCnnInit paramsEx 1 2 1 [1] none (fun v => max 0 v)
    (some wcharEx) 1 true

/-- A one-word, one-character index tensor selecting character index 1. -/
def tcharEx : T3 Nat := ⟨1, 1, 1, fun _ _ _ => 1⟩

/-- A mask excluding every character position of `tcharEx`. -/
def mcharEx : T3 Bool := ⟨1, 1, 1, fun _ _ _ => false⟩

/-- Character CNN with the default width-5 filter and no pretrained table. -/
def charCnnShort : CharCnn :=
  charLevelWordEmbeddingCnnInit paramsEx 2 3 1 [5] none (fun v => max 0 v)
    none 1 true

/-- A character tensor whose character axis (length 3) is shorter than the
width-5 filter of `charCnnShort`. -/
def tcharShort : T3 Nat := ⟨1, 1, 3, fun _ _ _ => 0⟩

/-- An attention-pooling instance satisfying the seq-major score contract. -/
def poolEx (c : ℚ) : AttentionPoolingM :=
  ⟨fun key _query _mask =>
    (⟨1, key.d1, key.d2, fun _ b f => c + ((b + f : Nat) : ℚ)⟩,
     ⟨key.d0, key.d1, fun i j => c * ((i + 2 * j : Nat) : ℚ)⟩)⟩

/-- A concrete stacked recurrent cell. -/
def cellEx : StackedCellM :=
  ⟨fun x h => (⟨h.d1, h.d2, fun j k => x.val j 0 + h.val 0 j k⟩, h)⟩

/-- A concrete pointer network. -/
def pnEx : PointerNetworkM := ⟨1, poolEx 1, poolEx 2, ⟨1, 1, 2, fun _ _ _ => 1⟩, cellEx⟩

/-- Question states for the pointer network: length 1, batch 2. -/
def qPadEx : T3 ℚ := ⟨1, 2, 2, fun _ b f => ((b + f : Nat) : ℚ)⟩

/-- Question mask, seq-major `(1, 2)`. -/
def qMaskEx : T2 ℚ := ⟨1, 2, fun _ _ => 1⟩

/-- Passage states for the pointer network: length 3, batch 2. -/
def pPadEx : T3 ℚ := ⟨3, 2, 2, fun s b f => ((s + 2 * b + f : Nat) : ℚ)⟩

/-- Passage mask, seq-major `(3, 2)`. -/
def pMaskEx : T2 ℚ := ⟨3, 2, fun _ _ => 1⟩

/-- A concrete two-example question batch: original lengths `[3, 4]`, sorted
order `[1, 0]`. -/
def docQEx : Documents :=
  ⟨⟨2, 4, fun i j => i + j⟩, [4, 3],
   ⟨2, 4, fun i j => if j < 3 + i then 1 else 0⟩, [1, 0]⟩

/-- A concrete two-example passage batch: original lengths `[2, 3]`, sorted
order `[1, 0]`. -/
def docPEx : Documents :=
  ⟨⟨2, 3, fun i j => 2 * i + j⟩, [3, 2],
   ⟨2, 3, fun i j => if j < 2 + i then 1 else 0⟩, [1, 0]⟩

/-- Embedded question, batch-major `(2, 4, 1)`. -/
def eqEx : T3 ℚ := ⟨2, 4, 1, fun b s _ => ((10 * b + s : Nat) : ℚ)⟩

/-- Embedded passage, batch-major `(2, 3, 1)`. -/
def epEx : T3 ℚ := ⟨2, 3, 1, fun b s _ => ((20 * b + s : Nat) : ℚ)⟩

/-- A concrete `RNetM` with shape-preserving encoders and the residual
toggle on. -/
def rnetEx : RNetM :=
  ⟨id, id, fun _ _ pk => pk, fun _ _ pk => pk,
   fun _qp _qm pp _pm =>
     (⟨pp.d0, pp.d1, fun i j => ((i + 2 * j : Nat) : ℚ)⟩,
      ⟨pp.d0, pp.d1, fun i j => ((3 * i + j : Nat) : ℚ)⟩),
   true⟩

/-- The concrete pair-encoded pack produced by `rnetEx` on `docQEx`,
`docPEx`, `eqEx`, `epEx`: with identity encoders and residual on, it is the
sentence-encoded passage pack added to itself. -/
def pstarEx : PackedSeq := ⟨T3.add epEx.transpose01 epEx.transpose01, [3, 2]⟩

/-- The concrete self-matched pack produced by `rnetEx` on the same inputs:
the paired pack added to itself (identity self-matcher, residual on). -/
def smEx : PackedSeq := ⟨T3.add pstarEx.data pstarEx.data, [3, 2]⟩

/-! ### Helper lemmas -/

theorem invApply_lt {l : List Nat} {a : Nat} (h : a ∈ l) : invApply l a < l.length := by
  induction l with
  | nil => cases h
  | cons b t ih =>
    by_cases hb : b = a
    · simp [invApply, hb]
    · rcases List.mem_cons.1 h with h1 | h2
      · exact absurd h1.symm hb
      · simpa [invApply, hb, Nat.succ_lt_succ_iff] using ih h2

theorem getD_invApply {l : List Nat} {a : Nat} (h : a ∈ l) (d : Nat) :
    l.getD (invApply l a) d = a := by
  induction l with
  | nil => cases h
  | cons b t ih =>
    by_cases hb : b = a
    · simp [invApply, hb]
    · rcases List.mem_cons.1 h with h1 | h2
      · exact absurd h1.symm hb
      · simpa [invApply, hb] using ih h2

theorem getD_mem {l : List Nat} {j : Nat} (h : j < l.length) (d : Nat) :
    l.getD j d ∈ l := by
  induction l generalizing j with
  | nil => simp at h
  | cons b t ih =>
    cases j with
    | zero => simp
    | succ j =>
      have : j < t.length := by simpa using h
      simpa [List.getD] using Or.inr (ih this)

theorem invApply_getD {l : List Nat} (hnd : l.Nodup) {j : Nat} (h : j < l.length) (d : Nat) :
    invApply l (l.getD j d) = j := by
  induction l generalizing j with
  | nil => simp at h
  | cons b t ih =>
    cases j with
    | zero => simp [invApply]
    | succ j =>
      have hj : j < t.length := by simpa using h
      have hmem : t.getD j d ∈ t := getD_mem hj d
      have hb : b ≠ t.getD j d := by
        intro hEq
        exact (List.nodup_cons.1 hnd).1 (hEq ▸ hmem)
      rw [List.getD_cons_succ]
      simp only [invApply]
      rw [if_neg hb, ih (List.nodup_cons.1 hnd).2 hj]

theorem Documents.mem_sorted_idx {d : Documents} (hwf : d.wf) {i : Nat}
    (hi : i < d.batchSize) : i ∈ d.sorted_idx :=
  (hwf.1.mem_iff).2 (List.mem_range.2 hi)

theorem Documents.nodup_sorted_idx {d : Documents} (hwf : d.wf) : d.sorted_idx.Nodup :=
  (hwf.1.nodup_iff).2 (List.nodup_range _)

theorem Documents.getD_lt {d : Documents} (hwf : d.wf) {j : Nat}
    (hj : j < d.batchSize) : d.sorted_idx.getD j 0 < d.batchSize := by
  have hmem : d.sorted_idx.getD j 0 ∈ d.sorted_idx := getD_mem hj 0
  exact List.mem_range.1 ((hwf.1.mem_iff).1 hmem)

theorem Documents.restore_to_sorted_val {d : Documents} (hwf : d.wf) (X : T2 α)
    [Inhabited α] {i : Nat} (hi : i < d.batchSize) (j : Nat) :
    (d.restore_original_order0 (d.to_sorted_order0 X)).val i j = X.val i j := by
  have hmem : i ∈ d.sorted_idx := Documents.mem_sorted_idx hwf hi
  simp only [Documents.restore_original_order0, Documents.to_sorted_order0]
  rw [getD_invApply hmem]

theorem Documents.to_sorted_restore_val {d : Documents} (hwf : d.wf) (X : T2 α)
    [Inhabited α] {j : Nat} (hj : j < d.batchSize) (k : Nat) :
    (d.to_sorted_order0 (d.restore_original_order0 X)).val j k = X.val j k := by
  have hj' : j < d.sorted_idx.length := hj
  simp only [Documents.restore_original_order0, Documents.to_sorted_order0]
  rw [invApply_getD (Documents.nodup_sorted_idx hwf) hj']

theorem pack_residual_eq_ok {x y : PackedSeq} (h : x.lengths = y.lengths) :
    pack_residual x y = Except.ok ⟨T3.add x.data y.data, x.lengths⟩ := by
  simp [pack_residual, pad_packed_sequence, pack_padded_sequence, h]

theorem pack_residual_eq_error {x y : PackedSeq} (h : x.lengths ≠ y.lengths) :
    pack_residual x y = Except.error ("different lengths") := by
  simp [pack_residual, pad_packed_sequence, h]

theorem except_ok_bind {α β : Type} (a : α) (f : α → Except String β) :
    (Except.ok a : Except String α) >>= f = f a := rfl

theorem except_pure_eq_ok {α : Type} (a : α) :
    (pure a : Except String α) = Except.ok a := rfl

theorem applyMask_dims (t : T3 Nat) (mask : Option (T3 Bool)) :
    (applyMask t mask).d0 = t.d0 ∧ (applyMask t mask).d1 = t.d1 ∧
      (applyMask t mask).d2 = t.d2 := by
  cases mask <;> exact ⟨rfl, rfl, rfl⟩

theorem convInput_dims (c : CharCnn) (t : T3 Nat) (mask : Option (T3 Bool)) :
    (c.convInput t mask).d0 = t.d0 * t.d1 ∧
      (c.convInput t mask).d1 = c.embed_weight.d1 ∧
      (c.convInput t mask).d2 = t.d2 := by
  cases mask <;> exact ⟨rfl, rfl, rfl⟩

theorem conv_forward_ok {c : Conv1dM} {x : T3 ℚ} (hch : x.d1 = c.in_channels)
    (hk : c.kernel_size ≤ x.d2) :
    ∃ y, c.forward x = Except.ok y ∧ y.d0 = x.d0 ∧ y.d1 = c.out_channels ∧
      y.d2 = x.d2 - c.kernel_size + 1 := by
  unfold Conv1dM.forward
  rw [if_neg (by simp [hch]), if_neg (Nat.not_lt.2 hk)]
  exact ⟨_, rfl, rfl, rfl, rfl⟩

theorem convPooled_ok {layer : Conv1dM × (ℚ → ℚ)} {x : T3 ℚ}
    (hch : x.d1 = layer.1.in_channels) (hk : layer.1.kernel_size ≤ x.d2) :
    ∃ o, convPooled layer x = Except.ok o ∧ o.d0 = x.d0 ∧ o.d1 = layer.1.out_channels := by
  obtain ⟨y, hy, h0, h1, _⟩ := conv_forward_ok hch hk
  refine ⟨maxDim2 (T3.map layer.2 y), ?_, ?_, ?_⟩
  · simp [convPooled, hy]
  · simp [maxDim2, T3.map, h0]
  · simp [maxDim2, T3.map, h1]

theorem mapM_convPooled {layers : List (Conv1dM × (ℚ → ℚ))} {x : T3 ℚ} {nf : Nat}
    (h : ∀ la ∈ layers, la.1.in_channels = x.d1 ∧ la.1.kernel_size ≤ x.d2 ∧
      la.1.out_channels = nf) :
    ∃ outs, layers.mapM (fun layer => convPooled layer x) = Except.ok outs ∧
      outs.length = layers.length ∧ ∀ o ∈ outs, o.d0 = x.d0 ∧ o.d1 = nf := by
  induction layers with
  | nil => exact ⟨[], rfl, rfl, by simp⟩
  | cons la rest ih =>
    obtain ⟨hch, hk, hout⟩ := h la (List.mem_cons_self la rest)
    obtain ⟨o, ho, ho0, ho1⟩ := convPooled_ok hch.symm hk
    obtain ⟨outs, houts, hlen, hall⟩ := ih (fun l hl => h l (List.mem_cons_of_mem la hl))
    refine ⟨o :: outs, ?_, by simp [hlen], ?_⟩
    · rw [List.mapM_cons, ho, houts]
      rfl
    · intro o2 ho2
      rcases List.mem_cons.1 ho2 with h1 | h2
      · exact h1 ▸ ⟨ho0, ho1.trans hout⟩
      · exact hall o2 h2

theorem sum_map_d1 {ts : List (T2 ℚ)} {nf : Nat} (h : ∀ o ∈ ts, o.d1 = nf) :
    (ts.map T2.d1).sum = ts.length * nf := by
  induction ts with
  | nil => simp
  | cons o rest ih =>
    have ho : o.d1 = nf := h o (List.mem_cons_self o rest)
    have hrest := ih (fun l hl => h l (List.mem_cons_of_mem o hl))
    rw [List.map_cons, List.sum_cons, hrest, ho, List.length_cons]
    ring

theorem catDim1_shape {ts : List (T2 ℚ)} {N nf : Nat} (hne : ts ≠ [])
    (hall : ∀ o ∈ ts, o.d0 = N ∧ o.d1 = nf) :
    (catDim1 ts).d0 = N ∧ (catDim1 ts).d1 = ts.length * nf := by
  constructor
  · cases ts with
    | nil => exact absurd rfl hne
    | cons o rest => exact (hall o (List.mem_cons_self o rest)).1
  · exact sum_map_d1 (fun o ho => (hall o ho).2)

theorem init_cnn_layers_length (p : InitParams) (ces cn nf : Nat) (ngram : List Nat)
    (od : Option Nat) (act : ℚ → ℚ) (ew : Option (T2 ℚ)) (padIdx : Nat) (rg : Bool) :
    (charLevelWordEmbeddingCnnInit p ces cn nf ngram od act ew padIdx rg).cnn_layers.length
      = ngram.length := by
  simp [charLevelWordEmbeddingCnnInit]

theorem init_cnn_layers_mem (p : InitParams) (ces cn nf : Nat) (ngram : List Nat)
    (od : Option Nat) (act : ℚ → ℚ) (ew : Option (T2 ℚ)) (padIdx : Nat) (rg : Bool) :
    ∀ la ∈ (charLevelWordEmbeddingCnnInit p ces cn nf ngram od act ew padIdx rg).cnn_layers,
      la.1.in_channels
          = (charLevelWordEmbeddingCnnInit p ces cn nf ngram od act ew padIdx rg).embed_weight.d1 ∧
        la.1.out_channels = nf ∧ la.1.kernel_size ∈ ngram := by
  intro la hla
  simp only [charLevelWordEmbeddingCnnInit, List.mem_map, List.mem_range] at hla
  obtain ⟨i, hi, rfl⟩ := hla
  refine ⟨?_, rfl, getD_mem hi 0⟩
  cases ew <;> rfl

theorem init_output_dims (p : InitParams) (ces cn nf : Nat) (ngram : List Nat)
    (od : Option Nat) (act : ℚ → ℚ) (ew : Option (T2 ℚ)) (padIdx : Nat) (rg : Bool) :
    ((charLevelWordEmbeddingCnnInit p ces cn nf ngram od act ew padIdx rg).output_layer
        = none →
      (charLevelWordEmbeddingCnnInit p ces cn nf ngram od act ew padIdx rg).output_dim
        = ngram.length * nf) ∧
    ∀ lin, (charLevelWordEmbeddingCnnInit p ces cn nf ngram od act ew padIdx rg).output_layer
        = some lin →
      lin.out_features
        = (charLevelWordEmbeddingCnnInit p ces cn nf ngram od act ew padIdx rg).output_dim := by
  constructor
  · intro h
    by_cases ht : truthy od
    · simp only [charLevelWordEmbeddingCnnInit, ht, if_true] at h
      cases h
    · simp [charLevelWordEmbeddingCnnInit, ht]
  · intro lin h
    by_cases ht : truthy od
    · simp only [charLevelWordEmbeddingCnnInit, ht, if_true] at h ⊢
      cases h
      rfl
    · simp only [charLevelWordEmbeddingCnnInit, ht, if_false] at h
      cases h

theorem CharCnn.forward_eq_cons {c : CharCnn} {t : T3 Nat} {mask : Option (T3 Bool)}
    {c0 : T2 ℚ} {rest : List (T2 ℚ)}
    (h : c.cnn_layers.mapM (fun layer => convPooled layer (c.convInput t mask))
      = Except.ok (c0 :: rest)) :
    c.forward t mask = Except.ok (view3 (c.applyOutputLayer
      (if (c0 :: rest).length > 1 then catDim1 (c0 :: rest) else c0))
      (applyMask t mask).d0 (applyMask t mask).d1) := by
  simp only [CharCnn.forward]
  rw [h]
  simp only [except_ok_bind]
  by_cases hl : (c0 :: rest).length > 1
  · simp only [if_pos hl, except_pure_eq_ok, except_ok_bind]
  · simp only [if_neg hl]
    rfl

theorem applyOutputLayer_dims {c : CharCnn} {o : T2 ℚ} (ho1 : o.d1 = ngramLen * nf)
    (hout : c.output_layer = none → c.output_dim = ngramLen * nf)
    (hlin : ∀ lin, c.output_layer = some lin → lin.out_features = c.output_dim) :
    (c.applyOutputLayer o).d0 = o.d0 ∧ (c.applyOutputLayer o).d1 = c.output_dim := by
  cases hcase : c.output_layer with
  | none =>
    exact ⟨by simp [CharCnn.applyOutputLayer, hcase],
      by simp [CharCnn.applyOutputLayer, hcase, ho1, hout hcase]⟩
  | some lin =>
    exact ⟨by simp [CharCnn.applyOutputLayer, hcase, LinearM.forward],
      by simp [CharCnn.applyOutputLayer, hcase, LinearM.forward, hlin lin hcase]⟩

theorem RNetM.pairedPack_ok (m : RNetM) (question passage : Documents) (eqt ept : T3 ℚ)
    (hpe : ∀ pk, (m.passage_encoder pk).lengths = pk.lengths ∧
      (m.passage_encoder pk).data.d0 = pk.data.d0 ∧
      (m.passage_encoder pk).data.d1 = pk.data.d1)
    (hpair : ∀ qp qm pk, (m.pair_encoder qp qm pk).lengths = pk.lengths ∧
      (m.pair_encoder qp qm pk).data.d0 = pk.data.d0 ∧
      (m.pair_encoder qp qm pk).data.d1 = pk.data.d1) :
    ∃ P, m.pairedPack question passage eqt ept = Except.ok P ∧
      P.lengths = passage.lengths ∧ P.data.d0 = ept.d1 ∧ P.data.d1 = ept.d0 := by
  have hpaired := hpair (m.questionPadInPassageSortedOrder question passage eqt)
    (questionMaskInPassageSortedOrder question passage)
    (m.passageEncodedPack passage ept)
  cases hres : m.residual with
  | false =>
    have h2 : m.pairedPack question passage eqt ept = Except.ok (m.pair_encoder
        (m.questionPadInPassageSortedOrder question passage eqt)
        (questionMaskInPassageSortedOrder question passage)
        (m.passageEncodedPack passage ept)) := by
      simp only [RNetM.pairedPack, hres, except_pure_eq_ok]
      rfl
    rw [h2]
    exact ⟨_, rfl, hpaired.1.trans (hpe _).1, hpaired.2.1.trans (hpe _).2.1,
      hpaired.2.2.trans (hpe _).2.2⟩
  | true =>
    have h2 : m.pairedPack question passage eqt ept = pack_residual (m.pair_encoder
        (m.questionPadInPassageSortedOrder question passage eqt)
        (questionMaskInPassageSortedOrder question passage)
        (m.passageEncodedPack passage ept)) (m.passageEncodedPack passage ept) := by
      simp only [RNetM.pairedPack, hres]
      rfl
    rw [h2, pack_residual_eq_ok hpaired.1]
    exact ⟨_, rfl, hpaired.1.trans (hpe _).1, hpaired.2.1.trans (hpe _).2.1,
      hpaired.2.2.trans (hpe _).2.2⟩

theorem RNetM.selfMatchedPack_ok (m : RNetM) (question passage : Documents) (eqt ept : T3 ℚ)
    (hpe : ∀ pk, (m.passage_encoder pk).lengths = pk.lengths ∧
      (m.passage_encoder pk).data.d0 = pk.data.d0 ∧
      (m.passage_encoder pk).data.d1 = pk.data.d1)
    (hpair : ∀ qp qm pk, (m.pair_encoder qp qm pk).lengths = pk.lengths ∧
      (m.pair_encoder qp qm pk).data.d0 = pk.data.d0 ∧
      (m.pair_encoder qp qm pk).data.d1 = pk.data.d1)
    (hself : ∀ qp qm pk, (m.self_matching_encoder qp qm pk).lengths = pk.lengths ∧
      (m.self_matching_encoder qp qm pk).data.d0 = pk.data.d0 ∧
      (m.self_matching_encoder qp qm pk).data.d1 = pk.data.d1) :
    ∃ sm, m.selfMatchedPack question passage eqt ept = Except.ok sm ∧
      sm.lengths = passage.lengths ∧ sm.data.d0 = ept.d1 ∧ sm.data.d1 = ept.d0 := by
  obtain ⟨P, hP, hPl, hP0, hP1⟩ := RNetM.pairedPack_ok m question passage eqt ept hpe hpair
  have hbind : m.selfMatchedPack question passage eqt ept =
      (if m.residual then pack_residual P (m.self_match_encode P passage)
        else pure (m.self_match_encode P passage)) := by
    simp only [RNetM.selfMatchedPack, hP, except_ok_bind]
  cases hres : m.residual with
  | false =>
    rw [hbind, hres, if_neg (by simp), except_pure_eq_ok]
    exact ⟨_, rfl, ((hself _ _ _).1).trans hPl, ((hself _ _ _).2.1).trans hP0,
      ((hself _ _ _).2.2).trans hP1⟩
  | true =>
    have hlen2 : P.lengths = (m.self_match_encode P passage).lengths :=
      ((hself (pad_packed_sequence P).1 (passageMaskSortedOrder passage) P).1).symm
    rw [hbind, hres, if_pos rfl, pack_residual_eq_ok hlen2]
    exact ⟨_, rfl, hPl, hP0, hP1⟩

theorem RNetM.forward_eq_of_selfMatched {m : RNetM} {question passage : Documents}
    {eqt ept : T3 ℚ} {sm : PackedSeq}
    (hsm : m.selfMatchedPack question passage eqt ept = Except.ok sm) :
    m.forward question passage eqt ept = Except.ok
      (passage.restore_original_order0
        ((m.pointer_output (m.questionPadInPassageSortedOrder question passage eqt)
          (questionMaskInPassageSortedOrder question passage)
          (pad_packed_sequence sm).1 (passageMaskSortedOrder passage)).1.transpose),
       passage.restore_original_order0
        ((m.pointer_output (m.questionPadInPassageSortedOrder question passage eqt)
          (questionMaskInPassageSortedOrder question passage)
          (pad_packed_sequence sm).1 (passageMaskSortedOrder passage)).2.transpose)) := by
  simp [RNetM.forward, hsm]

/-! ### Claims -/

/-- C2: for every well-formed batch and every tensor aligned to the batch
dimension, `restore_original_order` after `to_sorted_order` returns the
tensor exactly, on both batch dimensions used by the code (`batch_dim=0` on
rank-2 tensors and `batch_dim=1` on seq-major rank-3 tensors), and the two
operations are mutually inverse permutations over the batch dimension. -/
theorem claim_C2 {α β : Type} [Inhabited α] (d : Documents) (hwf : d.wf)
    (X : T2 α) (hX : X.d0 = d.batchSize) (Y : T3 β) (hY : Y.d1 = d.batchSize) :
    (d.restore_original_order0 (d.to_sorted_order0 X)).eqv X ∧
    (d.to_sorted_order0 (d.restore_original_order0 X)).eqv X ∧
    (d.restore_original_order1 (d.to_sorted_order1 Y)).eqv Y ∧
    (d.to_sorted_order1 (d.restore_original_order1 Y)).eqv Y := by
  refine ⟨⟨hX.symm, rfl, ?_⟩, ⟨hX.symm, rfl, ?_⟩, ⟨rfl, hY.symm, rfl, ?_⟩,
    ⟨rfl, hY.symm, rfl, ?_⟩⟩
  · intro i hi j _
    exact Documents.restore_to_sorted_val hwf X hi j
  · intro i hi j _
    exact Documents.to_sorted_restore_val hwf X hi j
  · intro s _ i hi f _
    have hmem : i ∈ d.sorted_idx := Documents.mem_sorted_idx hwf hi
    simp only [Documents.restore_original_order1, Documents.to_sorted_order1]
    rw [getD_invApply hmem]
  · intro s _ i hi f _
    have hi' : i < d.sorted_idx.length := hi
    simp only [Documents.restore_original_order1, Documents.to_sorted_order1]
    rw [invApply_getD (Documents.nodup_sorted_idx hwf) hi']

/-- Witness for C2 at a concrete three-example batch. -/
theorem claim_C2_witness :
    (docEx.restore_original_order0 (docEx.to_sorted_order0 xEx)).eqv xEx ∧
    (docEx.to_sorted_order0 (docEx.restore_original_order0 xEx)).eqv xEx ∧
    (docEx.restore_original_order1 (docEx.to_sorted_order1 yEx)).eqv yEx ∧
    (docEx.to_sorted_order1 (docEx.restore_original_order1 yEx)).eqv yEx :=
  claim_C2 docEx (by decide) xEx (by decide) yEx (by decide)

/-- C3: `pack_residual` fails with the descriptive error `different lengths`
whenever the per-example length vectors of its operands differ; when they
match it returns exactly the packed form of the elementwise sum of the two
unpacked (padded) operands, preserving all lengths and padded dimensions
(no silent padding or truncation). -/
theorem claim_C3 (x y : PackedSeq) :
    (x.lengths ≠ y.lengths → pack_residual x y = Except.error ("different lengths")) ∧
    (x.lengths = y.lengths →
      pack_residual x y = Except.ok (pack_padded_sequence
        (T3.add (pad_packed_sequence x).1 (pad_packed_sequence y).1)
        (pad_packed_sequence x).2) ∧
      ∀ res, pack_residual x y = Except.ok res →
        res.lengths = x.lengths ∧ res.lengths = y.lengths ∧
        res.data.d0 = x.data.d0 ∧ res.data.d1 = x.data.d1 ∧ res.data.d2 = x.data.d2 ∧
        ∀ s b f, res.data.val s b f = x.data.val s b f + y.data.val s b f) := by
  refine ⟨fun h => pack_residual_eq_error h, fun h => ⟨?_, ?_⟩⟩
  · rw [pack_residual_eq_ok h]
    rfl
  · intro res hres
    rw [pack_residual_eq_ok h] at hres
    injection hres with hres
    subst hres
    exact ⟨rfl, h, rfl, rfl, rfl, fun s b f => rfl⟩

/-- Witness for C3: the spec's concrete case of lengths `[3, 2]` with
deterministic content sums pointwise, and mismatched lengths `[3, 2]` versus
`[3, 1]` raise. -/
theorem claim_C3_witness :
    pack_residual packA packB = Except.ok (pack_padded_sequence
      (T3.add (pad_packed_sequence packA).1 (pad_packed_sequence packB).1)
      (pad_packed_sequence packA).2) ∧
    pack_residual packA packC = Except.error ("different lengths") :=
  ⟨((claim_C3 packA packB).2 (by decide)).1, (claim_C3 packA packC).1 (by decide)⟩

/-- C10: supplying `embedding_weights` to the `CharLevelWordEmbeddingCnn`
constructor overrides `char_num` and `char_embedding_size` with the weight
matrix dimensions (the constructed module is independent of those two
arguments), installs exactly those weights as the embedding table with
trainability given by `requires_grad`, and sizes the convolutions by the
weight column count. -/
theorem claim_C10 (p : InitParams) (ces cn ces2 cn2 nf : Nat) (ngram : List Nat)
    (od : Option Nat) (act : ℚ → ℚ) (w : T2 ℚ) (padIdx : Nat) (rg : Bool) :
    (charLevelWordEmbeddingCnnInit p ces cn nf ngram od act (some w) padIdx rg).embed_weight
        = w ∧
    (charLevelWordEmbeddingCnnInit p ces cn nf ngram od act (some w) padIdx
        rg).embed_requires_grad = rg ∧
    (charLevelWordEmbeddingCnnInit p ces cn nf ngram od act (some w) padIdx
        rg).embedding_size = w.d1 ∧
    (∀ la ∈ (charLevelWordEmbeddingCnnInit p ces cn nf ngram od act (some w) padIdx
        rg).cnn_layers, la.1.in_channels = w.d1) ∧
    charLevelWordEmbeddingCnnInit p ces cn nf ngram od act (some w) padIdx rg =
      charLevelWordEmbeddingCnnInit p ces2 cn2 nf ngram od act (some w) padIdx rg := by
  refine ⟨rfl, rfl, rfl, ?_, rfl⟩
  intro la hla
  simp only [charLevelWordEmbeddingCnnInit, List.mem_map] at hla
  obtain ⟨ik, _, rfl⟩ := hla
  rfl

/-- Witness for C10 at a concrete weight matrix: the table equals the
supplied weights and the constructed module ignores the dimension
arguments. -/
theorem claim_C10_witness :
    (charLevelWordEmbeddingCnnInit paramsEx 1 2 1 [1] none (fun v => max 0 v)
        (some wcharEx) 1 true).embed_weight = wcharEx ∧
    charLevelWordEmbeddingCnnInit paramsEx 1 2 1 [1] none (fun v => max 0 v)
        (some wcharEx) 1 true
      = charLevelWordEmbeddingCnnInit paramsEx 7 9 1 [1] none (fun v => max 0 v)
        (some wcharEx) 1 true := by
  have h := claim_C10 paramsEx 1 2 7 9 1 [1] none (fun v => max 0 v) wcharEx 1 true
  exact ⟨h.1, h.2.2.2.2⟩

/-- C8: `WordEmbedding.forward` returns one embedded tensor per input, all
looked up through the single shared table, which is exactly the supplied
pretrained matrix; lookups at the padding index return the padding row,
which no gradient update ever changes; `requires_grad=False` makes updates
leave the whole table untouched, while `requires_grad=True` updates every
non-padding row. -/
theorem claim_C8 (w : T2 ℚ) (padIdx : Nat) (rg : Bool) (ts : List (T2 Nat))
    (g : Nat → Nat → ℚ) :
    ((wordEmbeddingInit w padIdx rg).forward ts).length = ts.length ∧
    (wordEmbeddingInit w padIdx rg).forward ts = ts.map (fun t => embedLookup w t) ∧
    (wordEmbeddingInit w padIdx rg).weight = w ∧
    (∀ t : T2 Nat, ∀ i j k, t.val i j = padIdx →
      (embedLookup (wordEmbeddingInit w padIdx rg).weight t).val i j k = w.val padIdx k) ∧
    (∀ j, ((wordEmbeddingInit w padIdx rg).applyGrad g).weight.val padIdx j
        = w.val padIdx j) ∧
    (rg = false → (wordEmbeddingInit w padIdx rg).applyGrad g = wordEmbeddingInit w padIdx rg) ∧
    (rg = true → ∀ i j, i ≠ padIdx →
      ((wordEmbeddingInit w padIdx rg).applyGrad g).weight.val i j = w.val i j - g i j) := by
  refine ⟨by simp [WordEmbeddingM.forward], rfl, rfl, ?_, ?_, ?_, ?_⟩
  · intro t i j k h
    simp [embedLookup, wordEmbeddingInit, h]
  · intro j
    cases rg <;> simp [WordEmbeddingM.applyGrad, wordEmbeddingInit]
  · intro h
    subst h
    simp [WordEmbeddingM.applyGrad, wordEmbeddingInit]
  · intro h i j hij
    subst h
    simp [WordEmbeddingM.applyGrad, wordEmbeddingInit, hij]

/-- Witness for C8 at a concrete table and inputs. -/
theorem claim_C8_witness :
    ((wordEmbeddingInit xEx 1 false).forward [⟨1, 1, fun _ _ => 1⟩]).length = 1 ∧
    (embedLookup (wordEmbeddingInit xEx 1 false).weight ⟨1, 1, fun _ _ => 1⟩).val 0 0 0
      = xEx.val 1 0 ∧
    ((wordEmbeddingInit xEx 1 false).applyGrad (fun _ _ => 1)).weight.val 1 0 = xEx.val 1 0 ∧
    (wordEmbeddingInit xEx 1 false).applyGrad (fun _ _ => 1) = wordEmbeddingInit xEx 1 false := by
  have h := claim_C8 xEx 1 false [⟨1, 1, fun _ _ => 1⟩] (fun _ _ => 1)
  exact ⟨h.1, h.2.2.2.1 ⟨1, 1, fun _ _ => 1⟩ 0 0 0 rfl, h.2.2.2.2.1 0, h.2.2.2.2.2.1 rfl⟩

/-- C7 amended: a supplied boolean mask zeroes the character *indices* of
excluded positions before the embedding lookup, so a masked position
contributes the embedding vector of character index 0 to the convolution —
not necessarily a zero vector (the padding row is index 1 by default); an
absent mask means no masking and is not an error. -/
theorem claim_C7_amended (c : CharCnn) (t : T3 Nat) (m : T3 Bool) :
    (∀ i j k, m.val i j k = false → (applyMask t (some m)).val i j k = 0) ∧
    (∀ i j k e, j < t.d1 → m.val i j k = false →
      (c.convInput t (some m)).val (i * t.d1 + j) e k = c.embed_weight.val 0 e) ∧
    applyMask t none = t ∧
    c.forward t none = c.forward t (some ⟨t.d0, t.d1, t.d2, fun _ _ _ => true⟩) := by
  refine ⟨?_, ?_, rfl, rfl⟩
  · intro i j k hm
    simp [applyMask, hm]
  · intro i j k e hj hm
    have hd1 : 0 < t.d1 := Nat.lt_of_le_of_lt (Nat.zero_le j) hj
    have hdiv : (i * t.d1 + j) / t.d1 = i := by
      rw [Nat.add_comm, Nat.add_mul_div_right _ _ hd1, Nat.div_eq_of_lt hj, Nat.zero_add]
    have hmod : (i * t.d1 + j) % t.d1 = j := by
      rw [Nat.add_comm, Nat.add_mul_mod_self_right, Nat.mod_eq_of_lt hj]
    simp only [CharCnn.convInput, embedLookup, view2, T3.transpose12, applyMask]
    rw [hdiv, hmod]
    simp [hm]

/-- Counterexample to C7 as stated: with the pretrained table `wcharEx`
(row 0 equals 5, padding row 1 equals 0), masking the single character of
`tcharEx` zeroes its index, and the masked position contributes the tensor
entry 5 — not a zero vector — to the convolution input. -/
theorem claim_C7_counterexample :
    (applyMask tcharEx (some mcharEx)).val 0 0 0 = 0 ∧
    (charCnnEx.convInput tcharEx (some mcharEx)).val 0 0 0 = 5 ∧ ¬ ((5 : ℚ) = 0) := by
  refine ⟨rfl, rfl, by norm_num⟩

/-- Witness for the amended C7 at the concrete masked input. -/
theorem claim_C7_witness :
    (charCnnEx.convInput tcharEx (some mcharEx)).val (0 * tcharEx.d1 + 0) 0 0
      = charCnnEx.embed_weight.val 0 0 ∧
    applyMask tcharEx none = tcharEx :=
  ⟨(claim_C7_amended charCnnEx tcharEx mcharEx).2.1 0 0 0 0 (by decide) rfl,
   (claim_C7_amended charCnnEx tcharEx mcharEx).2.2.1⟩

/-- C6 amended: for every configuration with at least one filter width, on
an input whose character count is at least every configured filter width
(the convolution fails on shorter inputs) and whose batch and word counts
are positive, the forward pass returns a tensor of shape
`(batch, word_count, output_dim)`, where `output_dim` is the configured
value when given (and nonzero, per the constructor's truthiness test) and
`len(ngram_filter_sizes) * num_filters` otherwise; with exactly one filter
width the single convolution output is passed through without
concatenation. -/
theorem claim_C6_amended (p : InitParams) (ces cn nf : Nat) (ngram : List Nat)
    (od : Option Nat) (act : ℚ → ℚ) (ew : Option (T2 ℚ)) (padIdx : Nat) (rg : Bool)
    (t : T3 Nat) (mask : Option (T3 Bool))
    (hne : ngram ≠ []) (hk : ∀ k ∈ ngram, k ≤ t.d2)
    (hb : 0 < t.d0) (hw : 0 < t.d1) :
    (∃ out, (charLevelWordEmbeddingCnnInit p ces cn nf ngram od act ew padIdx rg).forward t mask
        = Except.ok out ∧
      out.d0 = t.d0 ∧ out.d1 = t.d1 ∧
      out.d2 = (charLevelWordEmbeddingCnnInit p ces cn nf ngram od act ew padIdx rg).output_dim) ∧
    (od = none →
      (charLevelWordEmbeddingCnnInit p ces cn nf ngram od act ew padIdx rg).output_dim
        = ngram.length * nf) ∧
    (∀ dv, od = some dv → dv ≠ 0 →
      (charLevelWordEmbeddingCnnInit p ces cn nf ngram od act ew padIdx rg).output_dim = dv) ∧
    (ngram.length = 1 →
      ∃ la o, (charLevelWordEmbeddingCnnInit p ces cn nf ngram od act ew padIdx rg).cnn_layers
          = [la] ∧
        convPooled la ((charLevelWordEmbeddingCnnInit p ces cn nf ngram od act ew padIdx
          rg).convInput t mask) = Except.ok o ∧
        (charLevelWordEmbeddingCnnInit p ces cn nf ngram od act ew padIdx rg).forward t mask
          = Except.ok (view3 ((charLevelWordEmbeddingCnnInit p ces cn nf ngram od act ew padIdx
              rg).applyOutputLayer o) (applyMask t mask).d0 (applyMask t mask).d1)) := by
  have hmem := init_cnn_layers_mem p ces cn nf ngram od act ew padIdx rg
  have hlenL := init_cnn_layers_length p ces cn nf ngram od act ew padIdx rg
  have hCI := convInput_dims (charLevelWordEmbeddingCnnInit p ces cn nf ngram od act ew padIdx rg)
    t mask
  have hAM := applyMask_dims t mask
  have hOD := init_output_dims p ces cn nf ngram od act ew padIdx rg
  have hlayer : ∀ la ∈ (charLevelWordEmbeddingCnnInit p ces cn nf ngram od act ew padIdx
      rg).cnn_layers,
      la.1.in_channels = ((charLevelWordEmbeddingCnnInit p ces cn nf ngram od act ew padIdx
        rg).convInput t mask).d1 ∧
      la.1.kernel_size ≤ ((charLevelWordEmbeddingCnnInit p ces cn nf ngram od act ew padIdx
        rg).convInput t mask).d2 ∧
      la.1.out_channels = nf := by
    intro la hla
    obtain ⟨h1, h2, h3⟩ := hmem la hla
    refine ⟨h1.trans hCI.2.1.symm, ?_, h2⟩
    rw [hCI.2.2]
    exact hk _ h3
  obtain ⟨outs, houts, hlen, hall⟩ := mapM_convPooled hlayer
  have houtsne : outs ≠ [] := by
    intro hnil
    apply hne
    apply List.length_eq_zero.1
    rw [← hlenL, ← hlen, hnil]
    rfl
  obtain ⟨c0, rest, rfl⟩ := List.exists_cons_of_ne_nil houtsne
  have hfwd := CharCnn.forward_eq_cons houts
  have hall' : ∀ o ∈ c0 :: rest, o.d0 = t.d0 * t.d1 ∧ o.d1 = nf := by
    intro o ho
    obtain ⟨ha, hb2⟩ := hall o ho
    exact ⟨ha.trans hCI.1, hb2⟩
  have hmid : (if (c0 :: rest).length > 1 then catDim1 (c0 :: rest) else c0).d0 = t.d0 * t.d1 ∧
      (if (c0 :: rest).length > 1 then catDim1 (c0 :: rest) else c0).d1 = ngram.length * nf := by
    by_cases hl : (c0 :: rest).length > 1
    · rw [if_pos hl]
      obtain ⟨hc0, hc1⟩ := catDim1_shape (List.cons_ne_nil c0 rest) hall'
      refine ⟨hc0, ?_⟩
      rw [hc1, hlen, hlenL]
    · rw [if_neg hl]
      have hlc : (c0 :: rest).length = rest.length + 1 := rfl
      have h1 : (c0 :: rest).length = 1 := by omega
      have hng : ngram.length = 1 := by rw [← hlenL, ← hlen, h1]
      obtain ⟨ha, hb2⟩ := hall' c0 (List.mem_cons_self c0 rest)
      exact ⟨ha, by rw [hb2, hng, Nat.one_mul]⟩
  obtain ⟨hap0, hap1⟩ := applyOutputLayer_dims hmid.2 hOD.1 hOD.2
  refine ⟨⟨_, hfwd, hAM.1, hAM.2.1, ?_⟩, ?_, ?_, ?_⟩
  · simp only [view3]
    rw [hap0, hap1, hmid.1, hAM.1, hAM.2.1]
    exact Nat.mul_div_cancel_left _ (Nat.mul_pos hb hw)
  · intro h
    subst h
    simp [charLevelWordEmbeddingCnnInit, truthy]
  · intro dv h hdv
    subst h
    simp [charLevelWordEmbeddingCnnInit, truthy, hdv]
  · intro h1
    have hl1 : (c0 :: rest).length = 1 := by rw [hlen, hlenL, h1]
    have hrest : rest = [] := by
      have hlc : (c0 :: rest).length = rest.length + 1 := rfl
      apply List.length_eq_zero.1
      omega
    subst hrest
    have hlayne : (charLevelWordEmbeddingCnnInit p ces cn nf ngram od act ew padIdx
        rg).cnn_layers ≠ [] := by
      intro hnil
      apply hne
      apply List.length_eq_zero.1
      rw [← hlenL, hnil]
      rfl
    obtain ⟨la, rest2, hlay⟩ := List.exists_cons_of_ne_nil hlayne
    have hrest2 : rest2 = [] := by
      have h2 : (la :: rest2).length = 1 := by rw [← hlay, hlenL, h1]
      have hlc : (la :: rest2).length = rest2.length + 1 := rfl
      apply List.length_eq_zero.1
      omega
    subst hrest2
    rw [hlay, List.mapM_cons] at houts
    cases hconv : convPooled la ((charLevelWordEmbeddingCnnInit p ces cn nf ngram od act ew
        padIdx rg).convInput t mask) with
    | error e =>
      rw [hconv] at houts
      cases houts
    | ok o =>
      rw [hconv] at houts
      have ho : o = c0 := by
        have h3 : (Except.ok [o] : Except String (List (T2 ℚ))) = Except.ok [c0] := houts
        injection h3 with h3
        injection h3
      subst ho
      refine ⟨la, o, hlay, hconv, ?_⟩
      rw [hfwd, if_neg (by simp)]

/-- Counterexample to C6 as stated: with the default single filter of width
5, a character axis of length 3 makes the convolution fail, so the forward
pass does not return a `(batch, word_count, output_dim)` tensor regardless
of character sequence length. -/
theorem claim_C6_counterexample :
    charCnnShort.forward tcharShort none
      = Except.error ("kernel size greater than input size") := by
  rfl

/-- Witness for the amended C6 at a concrete two-filter configuration. -/
theorem claim_C6_witness :
    ∃ out, (charLevelWordEmbeddingCnnInit paramsEx 2 3 2 [1, 2] none (fun v => max 0 v)
        none 1 true).forward ⟨1, 2, 2, fun _ _ _ => 1⟩ none = Except.ok out ∧
      out.d0 = 1 ∧ out.d1 = 2 ∧
      out.d2 = (charLevelWordEmbeddingCnnInit paramsEx 2 3 2 [1, 2] none (fun v => max 0 v)
        none 1 true).output_dim := by
  have h := claim_C6_amended paramsEx 2 3 2 [1, 2] none (fun v => max 0 v) none 1 true
    ⟨1, 2, 2, fun _ _ _ => 1⟩ none (by decide) (by decide) (by decide) (by decide)
  exact h.1

/-- C4 amended: `PointerNetwork.forward` returns, as begin logits, exactly
the unnormalized attention scores of the masked passage pooled against the
question-summary hidden state; the pooled vector is fed through the stacked
cell and the end logits are the scores of re-pooling the masked passage
against the cell output; no normalization is applied to either returned
score tensor.  Under the modelled seq-major score layout both outputs are
shaped `(passage_len, batch)` — not `(batch, passage_len)` as the claim
states (`RNet.forward` transposes them afterwards). -/
theorem claim_C4_amended (pn : PointerNetworkM) (hp : pn.passage_pooling.wf)
    (question_pad : T3 ℚ) (question_mask : T2 ℚ) (passage_pad : T3 ℚ)
    (passage_mask : T2 ℚ) :
    (pn.forward question_pad question_mask passage_pad passage_mask).1
        = (pn.passage_pooling.run passage_pad
            (pn.question_pooling.run question_pad pn.V_q question_mask).1 passage_mask).2 ∧
    (pn.forward question_pad question_mask passage_pad passage_mask).2
        = (pn.passage_pooling.run passage_pad
            ((pn.cell.run ((pn.passage_pooling.run passage_pad
                (pn.question_pooling.run question_pad pn.V_q question_mask).1
                passage_mask).1.squeeze0)
              (T3.expand0 pn.num_layers
                (pn.question_pooling.run question_pad pn.V_q question_mask).1)).1.unsqueeze0)
            passage_mask).2 ∧
    (pn.forward question_pad question_mask passage_pad passage_mask).1.d0 = passage_pad.d0 ∧
    (pn.forward question_pad question_mask passage_pad passage_mask).1.d1 = passage_pad.d1 ∧
    (pn.forward question_pad question_mask passage_pad passage_mask).2.d0 = passage_pad.d0 ∧
    (pn.forward question_pad question_mask passage_pad passage_mask).2.d1 = passage_pad.d1 := by
  refine ⟨rfl, rfl, ?_, ?_, ?_, ?_⟩
  · exact (hp passage_pad _ passage_mask).1
  · exact (hp passage_pad _ passage_mask).2
  · exact (hp passage_pad _ passage_mask).1
  · exact (hp passage_pad _ passage_mask).2

/-- Counterexample to C4 as stated: at passage length 3 and batch 2, both
pointer outputs have shape `(3, 2)`, not the claimed `(batch, passage_len)
= (2, 3)`. -/
theorem claim_C4_counterexample :
    ((pnEx.forward qPadEx qMaskEx pPadEx pMaskEx).1.d0,
      (pnEx.forward qPadEx qMaskEx pPadEx pMaskEx).1.d1) = (3, 2) ∧
    ((pnEx.forward qPadEx qMaskEx pPadEx pMaskEx).2.d0,
      (pnEx.forward qPadEx qMaskEx pPadEx pMaskEx).2.d1) = (3, 2) ∧
    ((3, 2) : Nat × Nat) ≠ (2, 3) :=
  ⟨rfl, rfl, by decide⟩

/-- Witness for the amended C4 at the concrete pointer network. -/
theorem claim_C4_witness :
    (pnEx.forward qPadEx qMaskEx pPadEx pMaskEx).1.d0 = pPadEx.d0 ∧
    (pnEx.forward qPadEx qMaskEx pPadEx pMaskEx).1.d1 = pPadEx.d1 ∧
    (pnEx.forward qPadEx qMaskEx pPadEx pMaskEx).2.d0 = pPadEx.d0 ∧
    (pnEx.forward qPadEx qMaskEx pPadEx pMaskEx).2.d1 = pPadEx.d1 := by
  have h := claim_C4_amended pnEx (fun key query mask => ⟨rfl, rfl⟩) qPadEx qMaskEx
    pPadEx pMaskEx
  exact ⟨h.2.2.1, h.2.2.2.1, h.2.2.2.2.1, h.2.2.2.2.2⟩

/-- C5: before pair encoding, the question states go through
`restore_original_order` (question's permutation) then `to_sorted_order`
(passage's permutation), and the question mask goes through
`to_sorted_order`; at every passage-sorted batch slot `j` the states and the
mask both refer to the same original example `passage.sorted_idx[j]`, and
the pair encoder and the pointer network receive exactly this question
tensor and this question mask. -/
theorem claim_C5 (m : RNetM) (question passage : Documents) (eqt ept : T3 ℚ) :
    m.questionPadInPassageSortedOrder question passage eqt
        = passage.to_sorted_order1 (question.restore_original_order1
            (pad_packed_sequence (m.questionEncodedPack question eqt)).1) ∧
    questionMaskInPassageSortedOrder question passage
        = (passage.to_sorted_order0 question.mask_original).transpose ∧
    (∀ j s f, (m.questionPadInPassageSortedOrder question passage eqt).val s j f
        = (question.restore_original_order1
            (pad_packed_sequence (m.questionEncodedPack question eqt)).1).val s
            (passage.sorted_idx.getD j 0) f) ∧
    (∀ j s, (questionMaskInPassageSortedOrder question passage).val s j
        = question.mask_original.val (passage.sorted_idx.getD j 0) s) ∧
    (m.pairedPack question passage eqt ept
        = if m.residual then
            pack_residual (m.pair_encoder
              (m.questionPadInPassageSortedOrder question passage eqt)
              (questionMaskInPassageSortedOrder question passage)
              (m.passageEncodedPack passage ept))
              (m.passageEncodedPack passage ept)
          else pure (m.pair_encoder
              (m.questionPadInPassageSortedOrder question passage eqt)
              (questionMaskInPassageSortedOrder question passage)
              (m.passageEncodedPack passage ept))) ∧
    (∀ sm, m.selfMatchedPack question passage eqt ept = Except.ok sm →
      m.forward question passage eqt ept = Except.ok
        (passage.restore_original_order0
          ((m.pointer_output (m.questionPadInPassageSortedOrder question passage eqt)
            (questionMaskInPassageSortedOrder question passage)
            (pad_packed_sequence sm).1 (passageMaskSortedOrder passage)).1.transpose),
         passage.restore_original_order0
          ((m.pointer_output (m.questionPadInPassageSortedOrder question passage eqt)
            (questionMaskInPassageSortedOrder question passage)
            (pad_packed_sequence sm).1 (passageMaskSortedOrder passage)).2.transpose))) := by
  refine ⟨rfl, rfl, fun j s f => rfl, fun j s => rfl, rfl, ?_⟩
  intro sm hsm
  exact RNetM.forward_eq_of_selfMatched hsm

/-- Witness for C5 at the concrete model and batches. -/
theorem claim_C5_witness :
    (∀ j s f, (rnetEx.questionPadInPassageSortedOrder docQEx docPEx eqEx).val s j f
        = (docQEx.restore_original_order1
            (pad_packed_sequence (rnetEx.questionEncodedPack docQEx eqEx)).1).val s
            (docPEx.sorted_idx.getD j 0) f) ∧
    rnetEx.forward docQEx docPEx eqEx epEx = Except.ok
      (docPEx.restore_original_order0
        ((rnetEx.pointer_output (rnetEx.questionPadInPassageSortedOrder docQEx docPEx eqEx)
          (questionMaskInPassageSortedOrder docQEx docPEx)
          (pad_packed_sequence smEx).1 (passageMaskSortedOrder docPEx)).1.transpose),
       docPEx.restore_original_order0
        ((rnetEx.pointer_output (rnetEx.questionPadInPassageSortedOrder docQEx docPEx eqEx)
          (questionMaskInPassageSortedOrder docQEx docPEx)
          (pad_packed_sequence smEx).1 (passageMaskSortedOrder docPEx)).2.transpose)) := by
  have h := claim_C5 rnetEx docQEx docPEx eqEx epEx
  exact ⟨h.2.2.1, h.2.2.2.2.2 smEx rfl⟩

/-- C9 amended: with the residual toggle on, the residual added after pair
encoding is the pair encoder's pre-encoding passage input (the
sentence-encoded passage pack), and the residual added after self-matching
is the paired output — which is exactly the value fed to the self-matching
encoder as its pre-encoding input, so both stages add the stage input to the
stage output (there is no asymmetry between them). -/
theorem claim_C9_amended (m : RNetM) (question passage : Documents) (eqt ept : T3 ℚ)
    (hres : m.residual = true)
    (hpe : ∀ pk, (m.passage_encoder pk).lengths = pk.lengths ∧
      (m.passage_encoder pk).data.d0 = pk.data.d0 ∧
      (m.passage_encoder pk).data.d1 = pk.data.d1)
    (hpair : ∀ qp qm pk, (m.pair_encoder qp qm pk).lengths = pk.lengths ∧
      (m.pair_encoder qp qm pk).data.d0 = pk.data.d0 ∧
      (m.pair_encoder qp qm pk).data.d1 = pk.data.d1) :
    m.pairedPack question passage eqt ept
        = pack_residual (m.pair_encoder
            (m.questionPadInPassageSortedOrder question passage eqt)
            (questionMaskInPassageSortedOrder question passage)
            (m.passageEncodedPack passage ept))
          (m.passageEncodedPack passage ept) ∧
    ∃ paired, m.pairedPack question passage eqt ept = Except.ok paired ∧
      m.selfMatchedPack question passage eqt ept
        = pack_residual paired (m.self_matching_encoder
            (pad_packed_sequence paired).1 (passageMaskSortedOrder passage) paired) := by
  constructor
  · simp only [RNetM.pairedPack, hres]
    rfl
  · obtain ⟨P, hP, _, _, _⟩ := RNetM.pairedPack_ok m question passage eqt ept hpe hpair
    refine ⟨P, hP, ?_⟩
    simp only [RNetM.selfMatchedPack, hP, except_ok_bind, hres]
    rfl

/-- Counterexample to C9 as stated: at a concrete run with the residual on,
the operand added after self-matching (`pstarEx`, the paired output) is the
very value fed to the self-matching encoder as its pre-encoding input — so
the claimed contrast with the self-matcher's pre-encoding input is false. -/
theorem claim_C9_counterexample :
    rnetEx.pairedPack docQEx docPEx eqEx epEx = Except.ok pstarEx ∧
    rnetEx.selfMatchedPack docQEx docPEx eqEx epEx
      = pack_residual pstarEx (rnetEx.self_matching_encoder
          (pad_packed_sequence pstarEx).1 (passageMaskSortedOrder docPEx) pstarEx) :=
  ⟨rfl, rfl⟩

/-- Witness for the amended C9 at the concrete model. -/
theorem claim_C9_witness :
    ∃ paired, rnetEx.pairedPack docQEx docPEx eqEx epEx = Except.ok paired ∧
      rnetEx.selfMatchedPack docQEx docPEx eqEx epEx
        = pack_residual paired (rnetEx.self_matching_encoder
            (pad_packed_sequence paired).1 (passageMaskSortedOrder docPEx) paired) :=
  (claim_C9_amended rnetEx docQEx docPEx eqEx epEx rfl (fun _ => ⟨rfl, rfl, rfl⟩)
    (fun _ _ _ => ⟨rfl, rfl, rfl⟩)).2

/-- C1: under the interface contracts of the encoders and the pointer
network (length- and shape-preservation, seq-major scores), every forward
pass of `RNet` succeeds and returns a pair of logit tensors, each of shape
`(batch, passage_length)`, obtained from the sorted-order pointer outputs by
transposing and applying the passage's restore permutation, so that row `i`
of each output is the score row of original example `i`. -/
theorem claim_C1 (m : RNetM) (question passage : Documents) (eqt ept : T3 ℚ)
    (hwf : passage.wf)
    (hpe : ∀ pk, (m.passage_encoder pk).lengths = pk.lengths ∧
      (m.passage_encoder pk).data.d0 = pk.data.d0 ∧
      (m.passage_encoder pk).data.d1 = pk.data.d1)
    (hpair : ∀ qp qm pk, (m.pair_encoder qp qm pk).lengths = pk.lengths ∧
      (m.pair_encoder qp qm pk).data.d0 = pk.data.d0 ∧
      (m.pair_encoder qp qm pk).data.d1 = pk.data.d1)
    (hself : ∀ qp qm pk, (m.self_matching_encoder qp qm pk).lengths = pk.lengths ∧
      (m.self_matching_encoder qp qm pk).data.d0 = pk.data.d0 ∧
      (m.self_matching_encoder qp qm pk).data.d1 = pk.data.d1)
    (hptr : ∀ qp qm pp pm, (m.pointer_output qp qm pp pm).1.d0 = pp.d0 ∧
      (m.pointer_output qp qm pp pm).1.d1 = pp.d1 ∧
      (m.pointer_output qp qm pp pm).2.d0 = pp.d0 ∧
      (m.pointer_output qp qm pp pm).2.d1 = pp.d1) :
    ∃ sm B E, m.selfMatchedPack question passage eqt ept = Except.ok sm ∧
      m.forward question passage eqt ept = Except.ok (B, E) ∧
      B = passage.restore_original_order0 ((m.pointer_output
        (m.questionPadInPassageSortedOrder question passage eqt)
        (questionMaskInPassageSortedOrder question passage)
        (pad_packed_sequence sm).1 (passageMaskSortedOrder passage)).1.transpose) ∧
      E = passage.restore_original_order0 ((m.pointer_output
        (m.questionPadInPassageSortedOrder question passage eqt)
        (questionMaskInPassageSortedOrder question passage)
        (pad_packed_sequence sm).1 (passageMaskSortedOrder passage)).2.transpose) ∧
      B.d0 = passage.batchSize ∧ B.d1 = ept.d1 ∧
      E.d0 = passage.batchSize ∧ E.d1 = ept.d1 ∧
      ∀ i, i < passage.batchSize →
        invApply passage.sorted_idx i < passage.batchSize ∧
        ∀ j, B.val i j = (m.pointer_output
            (m.questionPadInPassageSortedOrder question passage eqt)
            (questionMaskInPassageSortedOrder question passage)
            (pad_packed_sequence sm).1 (passageMaskSortedOrder passage)).1.val j
            (invApply passage.sorted_idx i) ∧
          E.val i j = (m.pointer_output
            (m.questionPadInPassageSortedOrder question passage eqt)
            (questionMaskInPassageSortedOrder question passage)
            (pad_packed_sequence sm).1 (passageMaskSortedOrder passage)).2.val j
            (invApply passage.sorted_idx i) := by
  obtain ⟨sm, hsm, hsml, hsm0, hsm1⟩ :=
    RNetM.selfMatchedPack_ok m question passage eqt ept hpe hpair hself
  refine ⟨sm, _, _, hsm, RNetM.forward_eq_of_selfMatched hsm, rfl, rfl, rfl, ?_, rfl, ?_, ?_⟩
  · exact ((hptr _ _ _ _).1).trans hsm0
  · exact ((hptr _ _ _ _).2.2.1).trans hsm0
  · intro i hi
    exact ⟨invApply_lt (Documents.mem_sorted_idx hwf hi), fun j => ⟨rfl, rfl⟩⟩

/-- Witness for C1 at the concrete model and batches. -/
theorem claim_C1_witness :
    ∃ sm B E, rnetEx.selfMatchedPack docQEx docPEx eqEx epEx = Except.ok sm ∧
      rnetEx.forward docQEx docPEx eqEx epEx = Except.ok (B, E) ∧
      B.d0 = docPEx.batchSize ∧ B.d1 = epEx.d1 ∧
      E.d0 = docPEx.batchSize ∧ E.d1 = epEx.d1 := by
  obtain ⟨sm, B, E, h1, h2, _, _, hB0, hB1, hE0, hE1, _⟩ :=
    claim_C1 rnetEx docQEx docPEx eqEx epEx (by decide)
      (fun pk => ⟨rfl, rfl, rfl⟩) (fun qp qm pk => ⟨rfl, rfl, rfl⟩)
      (fun qp qm pk => ⟨rfl, rfl, rfl⟩) (fun qp qm pp pm => ⟨rfl, rfl, rfl, rfl⟩)
  exact ⟨sm, B, E, h1, h2, hB0, hB1, hE0, hE1⟩

end RNetEmbed
